import Mathlib

/-!
# Verification of the llm-rag-system core pipeline

A shallow embedding of the document-ingestion / vector-retrieval / chat
pipeline of the repository, together with theorems settling the stated
properties of its specification.

JavaScript strings are modelled as `List Char` (`Str`), machine numbers as
`Nat`/`ℝ` (the source's floating point is idealised as real arithmetic),
fallible operations as `Except String _`, and the relational store as
explicit state records threaded through the functions. Remote capabilities
(S3, the OpenAI embedding and completion endpoints) are passed in as
`Except`-valued inputs; wall-clock fields (timestamps, processing time) are
outside the model.
-/

set_option maxHeartbeats 1000000

/-- JavaScript strings modelled as lists of characters. -/
abbrev Str := List Char

/-- `hay.includes(needle)` — case-sensitive substring test (JS
`String.prototype.includes`). -/
def jsIncludes (hay needle : Str) : Bool :=
  decide (needle <:+: hay)

/-- JS whitespace characters stripped by `String.prototype.trim`
(the ASCII subset; the documents in play are ASCII). -/
def isJsWhite (c : Char) : Bool :=
  c = ' ' || c = '\t' || c = '\n' || c = '\r' || c = '\x0b' || c = '\x0c'

/-- `s.trim()` — strip JS whitespace from both ends. -/
def jsTrim (l : Str) : Str :=
  ((l.dropWhile isJsWhite).reverse.dropWhile isJsWhite).reverse

/-- `s.lastIndexOf(c)` restricted to a single-character needle, returning
`none` where JS returns `-1`. -/
def lastIdxOf (c : Char) : Str → Option Nat
  | [] => none
  | x :: rest =>
    match lastIdxOf c rest with
    | some i => some (i + 1)
    | none => if x = c then some 0 else none

/-- `s.substring(a, b)` for `a ≤ b` — the characters at indices `[a, b)`. -/
def jsSubstring (l : Str) (a b : Nat) : Str :=
  (l.drop a).take (b - a)

/-! ## Chunker — `DocumentService.splitTextIntoPages`

`document.service.ts` lines 371–402.  The loop body of the source walks the
text with `currentPosition`; `splitGo` counts the remaining windows
(`k` windows left ⟺ source index `i = totalPages - k`), so "`i <
totalPages - 1`" becomes "more than one window left".  The float comparison
`lastSentenceEnd > avgCharsPerPage * 0.7` is modelled exactly on rationals
as `10 * lastSentenceEnd > 7 * avgCharsPerPage`. -/

/-- One iteration per remaining window of the source loop in
`splitTextIntoPages`: take the window `[cur, min (cur+avg) len)`, and on
every window but the last whose end is strictly inside the text, snap the
end back to the last `'.'` of the window when that index exceeds 70% of
the window size. -/
def splitGo (text : Str) (avg : Nat) : Nat → Nat → List Str
  | 0, _ => []
  | k + 1, cur =>
    let len := text.length
    let endPos := min (cur + avg) len
    let pageText := jsSubstring text cur endPos
    if k ≠ 0 ∧ endPos < len then
      match lastIdxOf '.' pageText with
      | some l =>
        if 10 * l > 7 * avg then
          pageText.take (l + 1) :: splitGo text avg k (cur + l + 1)
        else
          pageText :: splitGo text avg k endPos
      | none => pageText :: splitGo text avg k endPos
    else
      pageText :: splitGo text avg k endPos

/-- `DocumentService.splitTextIntoPages(text, totalPages)`: one chunk per
page; `avgCharsPerPage = Math.ceil(text.length / totalPages)`. -/
def splitTextIntoPages (text : Str) (totalPages : Nat) : List Str :=
  if totalPages ≤ 1 then
    [text]
  else
    splitGo text ((text.length + totalPages - 1) / totalPages) totalPages 0

/-! ## Vector search — `VectorSearchService`

`token-blacklist.service.ts` (second file in the bundle), lines 84–260.
Floating-point arithmetic is idealised as `ℝ`; `Math.sqrt` is `Real.sqrt`.
The thrown dimension error becomes `Except.error`; the `try/catch` around
the per-embedding similarity computation in `searchSimilarEmbeddings`
becomes a `match` that skips the record on `Except.error`. -/

/-- A result entry of `searchSimilarEmbeddings` (`VectorSearchResult`). -/
structure VectorSearchResult where
  content : Str
  similarity : ℝ
  documentId : Nat
  pageNumber : Nat
  documentName : Option Str

/-- An `Embedding` row as loaded by `Embedding.findAll` (with its joined
`document`'s `name` and `userId`). The list order of the store is the
storage order the rows come back in. -/
structure EmbRecord where
  id : Nat
  documentId : Nat
  pageNumber : Nat
  content : Str
  embedding : List ℝ
  documentName : Option Str
  documentUserId : Option Str

/-- `VectorSearchService.cosineSimilarity(a, b)`: throws when the lengths
differ; returns 0 when either norm is zero; otherwise
`dot(a,b) / (‖a‖ * ‖b‖)`. -/
noncomputable def cosineSimilarity (a b : List ℝ) : Except String ℝ :=
  if a.length ≠ b.length then
    .error "Vectors must have the same length"
  else
    let dotProduct := ((a.zip b).map fun p => p.1 * p.2).sum
    let normA := Real.sqrt ((a.map fun x => x * x).sum)
    let normB := Real.sqrt ((b.map fun x => x * x).sum)
    if normA = 0 ∨ normB = 0 then .ok 0
    else .ok (dotProduct / (normA * normB))

/-- The `for (const embedding of embeddings)` loop of
`searchSimilarEmbeddings`: compute the similarity, skip the record when the
computation throws (the source catches, warns and `continue`s), keep it
when `similarity >= threshold`. -/
noncomputable def searchLoop (queryEmbedding : List ℝ) (threshold : ℝ) :
    List EmbRecord → List VectorSearchResult
  | [] => []
  | e :: rest =>
    match cosineSimilarity queryEmbedding e.embedding with
    | .error _ => searchLoop queryEmbedding threshold rest
    | .ok sim =>
      if sim ≥ threshold then
        { content := e.content, similarity := sim, documentId := e.documentId,
          pageNumber := e.pageNumber, documentName := e.documentName } ::
          searchLoop queryEmbedding threshold rest
      else
        searchLoop queryEmbedding threshold rest

/-- Stable descending insertion: an element moves past another only when
its similarity is strictly greater, which is exactly the stable behaviour
of `Array.prototype.sort` (stable per ES2019) under the comparator
`(a, b) => b.similarity - a.similarity`. -/
noncomputable def insertDesc (x : VectorSearchResult) :
    List VectorSearchResult → List VectorSearchResult
  | [] => [x]
  | y :: ys =>
    if y.similarity ≤ x.similarity then x :: y :: ys
    else y :: insertDesc x ys

/-- `results.sort((a, b) => b.similarity - a.similarity)` as a stable
descending sort. -/
noncomputable def sortDesc : List VectorSearchResult → List VectorSearchResult
  | [] => []
  | x :: xs => insertDesc x (sortDesc xs)

/-- The rows `Embedding.findAll` hands the loop: all embeddings, inner
joined on `document.userId` when an owner filter is given. -/
def searchRows (userId : Option Str) (store : List EmbRecord) : List EmbRecord :=
  match userId with
  | none => store
  | some uid => store.filter fun e => e.documentUserId = some uid

/-- `VectorSearchService.searchSimilarEmbeddings(queryEmbedding, limit,
threshold, userId)` over an explicit store: optional owner filter (the
inner join on `document.userId`), the similarity/threshold loop, then
sort descending and `slice(0, limit)`. -/
noncomputable def searchSimilarEmbeddings (queryEmbedding : List ℝ) (limit : Nat)
    (threshold : ℝ) (userId : Option Str) (store : List EmbRecord) :
    List VectorSearchResult :=
  (sortDesc (searchLoop queryEmbedding threshold (searchRows userId store))).take limit

/-! ## Ingestion pipeline — `DocumentService`

`document.service.ts` lines 58–141 (`processDocument`) and 320–362
(`createPageEmbeddings`).  The S3 existence check, the metadata refresh,
the download + `pdf-parse` step and the embedding gateway are the
pipeline's fallible remote inputs, collected in `IngestEnv` (download and
PDF parsing are collapsed into one `Except`: any of the two failing takes
the same catch path).  `trace` records the successive values written to
the created document's `processingStatus`, creation value first. -/

/-- `Document.processingStatus` enum values. -/
inductive ProcStatus
  | pending
  | processing
  | completed
  | failed
deriving DecidableEq

/-- A `documents` row (the fields `processDocument` touches). -/
structure DocRow where
  id : Nat
  name : Str
  s3Key : Str
  contentType : Str
  fileSize : Option Nat
  totalPages : Nat
  processingStatus : ProcStatus
  processingError : Option String
deriving DecidableEq

/-- An `embeddings` row as created during ingestion. -/
structure EmbRow where
  documentId : Nat
  pageNumber : Nat
  content : Str
  embedding : List ℝ
  tokenCount : Nat

/-- The document store: `documents` and `embeddings` tables plus the
auto-increment counter. -/
structure DocDb where
  docs : List DocRow
  embs : List EmbRow
  nextDocId : Nat

/-- Result of `pdf-parse`: `numpages` and the extracted `text`. -/
structure PdfData where
  numpages : Nat
  text : Str

/-- Outcomes of the remote calls one `processDocument` run makes. -/
structure IngestEnv where
  fileExists : Bool
  metadataSize : Except String (Option Nat)
  pdf : Except String PdfData
  embed : Str → Except String (List ℝ)

/-- Decimal rendering of a page number for the provenance label. -/
def natStr (n : Nat) : Str := (toString n).toList

/-- The provenance label built in `createPageEmbeddings`:
`Page ${i + 1} of ${totalPages} from document '${fileName}': ${pageContent}`. -/
def pageLabel (pageNo totalPages : Nat) (fileName pageContent : Str) : Str :=
  "Page ".toList ++ natStr pageNo ++ " of ".toList ++ natStr totalPages ++
    " from document '".toList ++ fileName ++ "': ".toList ++ pageContent

/-- The `for (let i = 0; i < pageTexts.length; i++)` loop of
`createPageEmbeddings`: trim the chunk, skip it when empty, otherwise call
the embedding gateway and persist an `Embedding` row with
`tokenCount = Math.ceil(pageContent.length / 4)`. -/
def embedLoop (embed : Str → Except String (List ℝ)) (documentId totalPages : Nat)
    (fileName : Str) : List Str → Nat → DocDb → Nat → Except String (DocDb × Nat)
  | [], _, db, count => .ok (db, count)
  | p :: rest, i, db, count =>
    let pageContent := jsTrim p
    if pageContent.length = 0 then
      embedLoop embed documentId totalPages fileName rest (i + 1) db count
    else
      let text := pageLabel (i + 1) totalPages fileName pageContent
      match embed text with
      | .error e => .error e
      | .ok v =>
        embedLoop embed documentId totalPages fileName rest (i + 1)
          { db with embs := db.embs ++
              [{ documentId := documentId, pageNumber := i + 1, content := text,
                 embedding := v, tokenCount := (pageContent.length + 3) / 4 }] }
          (count + 1)

/-- `DocumentService.createPageEmbeddings`: split into pages, run the loop,
wrap any error. Returns the new store and `embeddingsCreated`. -/
def createPageEmbeddings (embed : Str → Except String (List ℝ)) (db : DocDb)
    (documentId : Nat) (fullText : Str) (totalPages : Nat) (fileName : Str) :
    Except String (DocDb × Nat) :=
  match embedLoop embed documentId totalPages fileName
      (splitTextIntoPages fullText totalPages) 0 db 0 with
  | .ok r => .ok r
  | .error e => .error ("Failed to create embeddings: " ++ e)

/-- `document.update({...})` on the row with the given id. -/
def updateDoc (db : DocDb) (docId : Nat) (f : DocRow → DocRow) : DocDb :=
  { db with docs := db.docs.map fun d => if d.id = docId then f d else d }

/-- Step 3 of `processDocument`: when no byte size was supplied, refresh
it best-effort from the storage metadata; any failure there (or an absent
size) is absorbed and the store left as is. -/
def metaRefresh (env : IngestEnv) (db : DocDb) (docId : Nat)
    (fileSize : Option Nat) : DocDb :=
  if fileSize.isNone then
    match env.metadataSize with
    | .ok (some n) => updateDoc db docId fun d => { d with fileSize := some n }
    | _ => db
  else db

/-- The remaining `try` block of `processDocument`: S3 existence check,
the metadata refresh, download + parse, page-count update, page
embeddings.  An error carries the store as mutated so far, for the
`catch` to mark failure on. -/
def processTry (env : IngestEnv) (db : DocDb) (docId : Nat) (fileSize : Option Nat)
    (s3Key fileName : Str) : Except (DocDb × String) (DocDb × Nat × Nat) :=
  if ¬ env.fileExists then
    .error (db, "File with key '" ++ String.mk s3Key ++
      "' does not exist in S3. Please ensure the file has been uploaded before processing.")
  else
    let db1 := metaRefresh env db docId fileSize
    match env.pdf with
    | .error e => .error (db1, e)
    | .ok pdfData =>
      let db2 := updateDoc db1 docId fun d => { d with totalPages := pdfData.numpages }
      match createPageEmbeddings env.embed db2 docId pdfData.text pdfData.numpages fileName with
      | .error e => .error (db2, e)
      | .ok (db3, count) => .ok (db3, count, pdfData.numpages)

/-- The observable outcome of one `processDocument` call: final store, the
sequence of `processingStatus` values written to the created row (creation
value first), and the returned/thrown result
(`embeddingsCreated`, `totalPages` on success). -/
structure ProcOutcome where
  db : DocDb
  trace : List ProcStatus
  result : Except String (Nat × Nat)

/-- `DocumentService.processDocument(s3Key, fileName, contentType,
fileSize)`: reject non-PDF content types before touching the store, create
the Document row with `processingStatus: 'processing'`, run the pipeline,
and mark `completed` or `failed` (recording the error message). -/
def processDocument (env : IngestEnv) (db : DocDb)
    (s3Key fileName contentType : Str) (fileSize : Option Nat) : ProcOutcome :=
  if ¬ jsIncludes contentType "pdf".toList then
    { db := db, trace := [], result := .error "Only PDF files are supported" }
  else
    let docId := db.nextDocId
    let doc : DocRow :=
      { id := docId, name := fileName, s3Key := s3Key, contentType := contentType,
        fileSize := fileSize, totalPages := 0, processingStatus := .processing,
        processingError := none }
    let db1 : DocDb := { db with docs := db.docs ++ [doc], nextDocId := docId + 1 }
    match processTry env db1 docId fileSize s3Key fileName with
    | .ok (db2, count, totalPages) =>
      { db := updateDoc db2 docId fun d => { d with processingStatus := .completed },
        trace := [.processing, .completed],
        result := .ok (count, totalPages) }
    | .error (db2, msg) =>
      { db := updateDoc db2 docId fun d =>
          { d with processingStatus := .failed, processingError := some msg },
        trace := [.processing, .failed],
        result := .error ("Document processing failed: " ++ msg) }

/-! ## Chat orchestration — `ChatService` and `LLMService`

`chat.service.ts` (`createChat`, `processQuery`) and `llm.service.ts`
(`generateResponse`, `generateChatTitle`).  The two OpenAI completion
calls are the fallible inputs in `LLMEnv`; `generateResponse`'s client is
a function of the assembled role-tagged messages, `generateChatTitle`'s is
the outcome of its fixed-prompt call (the extracted
`choices[0].message?.content`, `none` when absent).  Wall-clock fields
(`processingTime`, `lastQueryTime`, timestamps) are outside the model;
message creation order is the list order of `msgs`. -/

/-- `Chat.status` enum values. -/
inductive ChatStatus
  | active
  | archived
  | deleted
deriving DecidableEq

/-- `ChatMessage.role` enum values. -/
inductive MsgRole
  | user
  | assistant
deriving DecidableEq

/-- Roles of the messages sent to the completion endpoint. -/
inductive LLMRole
  | system
  | user
  | assistant
deriving DecidableEq

/-- A role-tagged message for the completion endpoint. -/
structure LLMMessage where
  role : LLMRole
  content : Str
deriving DecidableEq

/-- `Chat.metadata` usage counters (`lastQueryTime` elided). -/
structure ChatMeta where
  totalMessages : Nat
  totalTokensUsed : Nat
deriving DecidableEq

/-- A `chats` row. -/
structure ChatRow where
  id : Nat
  title : Str
  description : Option Str
  userId : Str
  status : ChatStatus
  metadata : Option ChatMeta
deriving DecidableEq

/-- `ChatMessage.metadata` (`processingTime` elided). -/
structure MsgMeta where
  tokensUsed : Option Nat
  model : Option Str
deriving DecidableEq

/-- A `chat_messages` row; rows appear in creation order. -/
structure MsgRow where
  id : Nat
  chatId : Nat
  role : MsgRole
  content : Str
  metadata : MsgMeta
deriving DecidableEq

/-- The chat store: users (by id), `chats`, `chat_messages`, id counters. -/
structure ChatDb where
  users : List Str
  chats : List ChatRow
  msgs : List MsgRow
  nextChatId : Nat
  nextMsgId : Nat
deriving DecidableEq

/-- Token usage reported by the completion endpoint. -/
structure TokensUsed where
  prompt : Nat
  completion : Nat
  total : Nat
deriving DecidableEq

/-- `LLMResponse` as returned by `LLMService.generateResponse`. -/
structure LLMResponse where
  answer : Str
  tokensUsed : TokensUsed
  model : Str
  finishReason : Str
deriving DecidableEq

/-- Outcomes of the completion calls one chat operation makes. -/
structure LLMEnv where
  complete : List LLMMessage → Except String LLMResponse
  titleCompletion : Except String (Option Str)

/-- The system prompt of `generateResponse` with the context interpolated. -/
def ragSystemPrompt (context : Str) : Str :=
  ("You are a helpful AI assistant that answers questions based on provided context. " ++
   "Use the following context to answer the user's question. If the context doesn't contain " ++
   "enough information to answer the question, say so clearly. Be concise but comprehensive. " ++
   "Context: ").toList ++ context

/-- The message list `generateResponse` sends: system prompt with context,
then the chat history, then the new user query. -/
def buildRagMessages (query context : Str) (chatHistory : List LLMMessage) :
    List LLMMessage :=
  { role := .system, content := ragSystemPrompt context } ::
    (chatHistory ++ [{ role := .user, content := query }])

/-- `LLMService.generateResponse(query, context, chatHistory)`: call the
completion endpoint on the assembled messages; wrap any failure. -/
def generateResponse (env : LLMEnv) (query context : Str)
    (chatHistory : List LLMMessage) : Except String LLMResponse :=
  match env.complete (buildRagMessages query context chatHistory) with
  | .ok r => .ok r
  | .error e => .error ("Failed to generate LLM response: " ++ e)

/-- `query.split(' ')` — JS split on a single space. -/
def splitOnSpace (l : Str) : List Str :=
  match l with
  | [] => [[]]
  | c :: rest =>
    match splitOnSpace rest with
    | [] => [[]]
    | w :: ws => if c = ' ' then [] :: w :: ws else (c :: w) :: ws

/-- The catch-branch of `generateChatTitle`:
`query.split(' ').slice(0, 6).join(' ')`, truncated to 47 characters plus
`'...'` when longer than 50. -/
def titleFallback (query : Str) : Str :=
  let words := List.intercalate " ".toList ((splitOnSpace query).take 6)
  if words.length > 50 then words.take 47 ++ "...".toList else words

/-- `LLMService.generateChatTitle(query)`: on success use the returned
content (`'New Chat'` when absent or empty), truncating past 50
characters; on any failure fall back to the first six words of the query. -/
def generateChatTitle (env : LLMEnv) (query : Str) : Str :=
  match env.titleCompletion with
  | .ok content =>
    let title :=
      match content with
      | some t => if t = [] then "New Chat".toList else t
      | none => "New Chat".toList
    if title.length > 50 then title.take 47 ++ "...".toList else title
  | .error _ => titleFallback query

/-- `Chat.findOne({ where: { id, userId, status: 'active' } })`. -/
def findActiveChat (chats : List ChatRow) (chatId : Nat) (userId : Str) :
    Option ChatRow :=
  chats.find? fun c =>
    decide (c.id = chatId ∧ c.userId = userId ∧ c.status = ChatStatus.active)

/-- The conversation history `processQuery` loads: the chat's messages,
most recent 10 (`order createdAt DESC, limit 10`), then `.reverse()`d back
to oldest-first and mapped to role/content pairs. -/
def chatHistoryOf (msgs : List MsgRow) (chatId : Nat) : List LLMMessage :=
  ((((msgs.filter fun m => decide (m.chatId = chatId)).reverse).take 10).reverse).map
    fun m =>
      { role := match m.role with
          | .user => LLMRole.user
          | .assistant => LLMRole.assistant,
        content := m.content }

/-- Argument record of `ChatService.processQuery`. -/
structure ChatQueryRequest where
  query : Str
  chatId : Nat
  userId : Str

/-- `QueryResponse` (`processingTime` elided). -/
structure QueryResponse where
  chatId : Nat
  query : Str
  answer : Str
  tokensUsed : Nat
  model : Str
  messageId : Nat
deriving DecidableEq

/-- `ChatService.processQuery(queryData)`: verify the chat exists, belongs
to the caller and is active; load the history; call the completion
endpoint with empty context; only then persist the user message and the
assistant message and bump the chat's usage metadata (`totalMessages + 2`,
`totalTokensUsed + tokensUsed.total`). -/
def processQuery (env : LLMEnv) (db : ChatDb) (req : ChatQueryRequest) :
    ChatDb × Except String QueryResponse :=
  match findActiveChat db.chats req.chatId req.userId with
  | none => (db, .error "Failed to process query: Chat not found or access denied")
  | some chat =>
    let chatHistory := chatHistoryOf db.msgs req.chatId
    match generateResponse env req.query [] chatHistory with
    | .error e => (db, .error ("Failed to process query: " ++ e))
    | .ok llmResponse =>
      let userMessage : MsgRow :=
        { id := db.nextMsgId, chatId := req.chatId, role := .user,
          content := req.query, metadata := { tokensUsed := none, model := none } }
      let assistantMessage : MsgRow :=
        { id := db.nextMsgId + 1, chatId := req.chatId, role := .assistant,
          content := llmResponse.answer,
          metadata := { tokensUsed := some llmResponse.tokensUsed.total,
                        model := some llmResponse.model } }
      let newMeta : ChatMeta :=
        { totalMessages :=
            (match chat.metadata with | some m => m.totalMessages | none => 0) + 2,
          totalTokensUsed :=
            (match chat.metadata with | some m => m.totalTokensUsed | none => 0) +
              llmResponse.tokensUsed.total }
      let db' : ChatDb :=
        { db with
          msgs := db.msgs ++ [userMessage, assistantMessage],
          chats := db.chats.map fun c =>
            if c.id = chat.id then { c with metadata := some newMeta } else c,
          nextMsgId := db.nextMsgId + 2 }
      let response : QueryResponse :=
        { chatId := req.chatId, query := req.query, answer := llmResponse.answer,
          tokensUsed := llmResponse.tokensUsed.total, model := llmResponse.model,
          messageId := assistantMessage.id }
      (db', .ok response)

/-- Argument record of `ChatService.createChat`. -/
structure CreateChatRequest where
  query : Str
  userId : Str
  title : Option Str

/-- `ChatService.createChat(chatData)`: verify the user exists; generate a
title when none (or an empty one) was supplied; create the Chat row in
`active` with zeroed counters; then delegate to `processQuery` for the
first query, wrapping any failure (the created row is not rolled back). -/
def createChat (env : LLMEnv) (db : ChatDb) (req : CreateChatRequest) :
    ChatDb × Except String QueryResponse :=
  if ¬ db.users.contains req.userId then
    (db, .error "Failed to create chat: User not found")
  else
    let title :=
      match req.title with
      | some t => if t = [] then generateChatTitle env req.query else t
      | none => generateChatTitle env req.query
    let chat : ChatRow :=
      { id := db.nextChatId, title := title, description := none,
        userId := req.userId, status := .active,
        metadata := some { totalMessages := 0, totalTokensUsed := 0 } }
    let db1 : ChatDb := { db with chats := db.chats ++ [chat], nextChatId := db.nextChatId + 1 }
    match processQuery env db1 { query := req.query, chatId := chat.id, userId := req.userId } with
    | (db2, .ok r) => (db2, .ok r)
    | (db2, .error e) => (db2, .error ("Failed to create chat: " ++ e))

/-! ## Theorems -/

theorem lastIdxOf_lt_length {c : Char} {l : Str} {i : Nat}
    (h : lastIdxOf c l = some i) : i < l.length := by
  induction l generalizing i with
  | nil => simp [lastIdxOf] at h
  | cons x rest ih =>
    simp only [lastIdxOf] at h
    cases hr : lastIdxOf c rest with
    | some j =>
      rw [hr] at h
      cases h
      simpa using Nat.succ_lt_succ (ih hr)
    | none =>
      rw [hr] at h
      by_cases hx : x = c
      · rw [if_pos hx] at h
        cases h
        simp
      · rw [if_neg hx] at h
        cases h

theorem jsSubstring_append (t : Str) (a m e : Nat) (h1 : a ≤ m) (h2 : m ≤ e) :
    jsSubstring t a m ++ jsSubstring t m e = jsSubstring t a e := by
  unfold jsSubstring
  have key : (t.drop a).take (e - a) =
      ((t.drop a).take (e - a)).take (m - a) ++ ((t.drop a).take (e - a)).drop (m - a) :=
    (List.take_append_drop _ _).symm
  rw [key, List.take_take, List.drop_take, List.drop_drop]
  have h3 : min (m - a) (e - a) = m - a := by omega
  have h4 : e - a - (m - a) = e - m := by omega
  have h5 : a + (m - a) = m := by omega
  rw [h3, h4, h5]

theorem splitGo_length (text : Str) (avg : Nat) :
    ∀ k cur, (splitGo text avg k cur).length = k := by
  intro k
  induction k with
  | zero => intro cur; simp [splitGo]
  | succ k ih =>
    intro cur
    unfold splitGo
    dsimp only
    split
    · split <;> try split
      all_goals simp [ih]
    · simp [ih]

theorem splitGo_join_step (text : Str) (avg : Nat) (k cur m : Nat)
    (hm1 : cur ≤ m) (hm2 : m ≤ text.length)
    (ih : ∀ cur ≤ text.length, ∃ e, cur ≤ e ∧ e ≤ text.length ∧
      (splitGo text avg k cur).flatten = jsSubstring text cur e) :
    ∃ e, cur ≤ e ∧ e ≤ text.length ∧
      (jsSubstring text cur m :: splitGo text avg k m).flatten = jsSubstring text cur e := by
  obtain ⟨e, he1, he2, he3⟩ := ih m hm2
  refine ⟨e, le_trans hm1 he1, he2, ?_⟩
  simp only [List.flatten_cons, he3]
  exact jsSubstring_append text cur m e hm1 he1

theorem splitGo_join (text : Str) (avg : Nat) :
    ∀ k, ∀ cur ≤ text.length,
      ∃ e, cur ≤ e ∧ e ≤ text.length ∧
        (splitGo text avg k cur).flatten = jsSubstring text cur e := by
  intro k
  induction k with
  | zero =>
    intro cur hcur
    exact ⟨cur, le_refl _, hcur, by simp [splitGo, jsSubstring]⟩
  | succ k ih =>
    intro cur hcur
    have hcur_end : cur ≤ min (cur + avg) text.length :=
      le_min (Nat.le_add_right cur avg) hcur
    have hend_le : min (cur + avg) text.length ≤ text.length := min_le_right _ _
    unfold splitGo
    dsimp only
    split
    · next hcond =>
      split
      · next l hl =>
        have hl_lt : l < (jsSubstring text cur (min (cur + avg) text.length)).length :=
          lastIdxOf_lt_length hl
        have hlen_page : (jsSubstring text cur (min (cur + avg) text.length)).length =
            min (cur + avg) text.length - cur := by
          unfold jsSubstring
          rw [List.length_take, List.length_drop]
          omega
        split
        · have hmid : cur + l + 1 ≤ min (cur + avg) text.length := by
            rw [hlen_page] at hl_lt; omega
          have htake : (jsSubstring text cur (min (cur + avg) text.length)).take (l + 1) =
              jsSubstring text cur (cur + l + 1) := by
            unfold jsSubstring
            rw [List.take_take]
            congr 1
            omega
          rw [htake]
          exact splitGo_join_step text avg k cur (cur + l + 1) (by omega)
            (le_trans hmid hend_le) ih
        · exact splitGo_join_step text avg k cur _ hcur_end hend_le ih
      · exact splitGo_join_step text avg k cur _ hcur_end hend_le ih
    · exact splitGo_join_step text avg k cur _ hcur_end hend_le ih

theorem jsSubstring_sublist (t : Str) (a b : Nat) : (jsSubstring t a b).Sublist t :=
  (List.take_sublist _ _).trans (List.drop_sublist _ _)

/-- C1 (as stated) is false: with two pages and a sentence terminator that
triggers boundary snapping, the tail of the text after the last raw window
boundary is dropped, so the concatenation of the chunks loses characters. -/
theorem c1_chunker_counterexample :
    (splitTextIntoPages "abcdefgh.jklmnopqrst".toList 2).length = 2 ∧
    (splitTextIntoPages "abcdefgh.jklmnopqrst".toList 2).flatten ≠
      "abcdefgh.jklmnopqrst".toList := by
  constructor
  · decide
  · decide

/-- C1 (amended): for every text and page count `N > 1`,
`splitTextIntoPages` returns exactly `N` chunks whose concatenation is a
prefix of the original text — no characters are duplicated or reordered,
but characters can be lost from the end of the text when sentence-boundary
snapping shortens a window. -/
theorem c1_chunker_chunks_prefix (text : Str) (n : Nat) (h : 1 < n) :
    (splitTextIntoPages text n).length = n ∧
    (splitTextIntoPages text n).flatten <+: text := by
  have hnot : ¬ n ≤ 1 := by omega
  unfold splitTextIntoPages
  rw [if_neg hnot]
  constructor
  · exact splitGo_length text _ n 0
  · obtain ⟨e, -, -, he⟩ := splitGo_join text _ n 0 (Nat.zero_le _)
    rw [he]
    unfold jsSubstring
    simpa using List.take_prefix e text

theorem c1_chunker_chunks_prefix_witness :
    1 < 2 ∧
    ((splitTextIntoPages "ab.de".toList 2).length = 2 ∧
      (splitTextIntoPages "ab.de".toList 2).flatten <+: "ab.de".toList) :=
  ⟨by decide, c1_chunker_chunks_prefix "ab.de".toList 2 (by decide)⟩

/-- C6: `processQuery` on a chat id that does not exist, is not owned by
the caller, or is not `active` (i.e. the `findOne` on id/owner/active
finds nothing) returns the not-found error and leaves the store — in
particular the `chat_messages` table — unchanged. -/
theorem c6_process_query_not_found (env : LLMEnv) (db : ChatDb) (req : ChatQueryRequest)
    (h : findActiveChat db.chats req.chatId req.userId = none) :
    processQuery env db req =
      (db, .error "Failed to process query: Chat not found or access denied") := by
  unfold processQuery
  rw [h]

theorem c6_process_query_not_found_witness :
    findActiveChat (ChatDb.mk [] [] [] 0 0).chats 1 "u".toList = none ∧
    processQuery ⟨fun _ => .error "down", .error "down"⟩ (ChatDb.mk [] [] [] 0 0)
        ⟨"q".toList, 1, "u".toList⟩ =
      (ChatDb.mk [] [] [] 0 0,
        .error "Failed to process query: Chat not found or access denied") :=
  ⟨by decide, c6_process_query_not_found _ _ _ (by decide)⟩

/-- C7: `processDocument` with a declared content type that does not
contain `"pdf"` throws before the Document row is created: the store is
returned untouched, no status is ever written, and the error is the
unsupported-type message. -/
theorem c7_nonpdf_rejected_before_create (env : IngestEnv) (db : DocDb)
    (s3Key fileName contentType : Str) (fileSize : Option Nat)
    (h : jsIncludes contentType "pdf".toList = false) :
    processDocument env db s3Key fileName contentType fileSize =
      { db := db, trace := [], result := .error "Only PDF files are supported" } := by
  have h' : jsIncludes contentType "pdf".toList ≠ true := by
    rw [h]
    exact Bool.false_ne_true
  unfold processDocument
  rw [if_pos h']

theorem c7_nonpdf_rejected_before_create_witness :
    jsIncludes "text/plain".toList "pdf".toList = false ∧
    processDocument ⟨true, .error "m", .error "p", fun _ => .error "e"⟩ ⟨[], [], 0⟩
        "k".toList "f".toList "text/plain".toList none =
      { db := ⟨[], [], 0⟩, trace := [],
        result := .error "Only PDF files are supported" } :=
  ⟨by decide, c7_nonpdf_rejected_before_create _ _ _ _ _ _ (by decide)⟩

/-- C3 (as stated) is false: the Document row is created with
`processingStatus: 'processing'`, not `'pending'` — on a concrete
successful run the sequence of statuses written to the row is
`[processing, completed]`, never containing `pending`. -/
theorem c3_created_processing_counterexample :
    (processDocument ⟨true, .error "m", .ok ⟨1, []⟩, fun _ => .error "down"⟩
        ⟨[], [], 0⟩ "k".toList "f".toList "application/pdf".toList (some 3)).trace =
      [ProcStatus.processing, ProcStatus.completed] ∧
    ProcStatus.processing ≠ ProcStatus.pending := by
  constructor
  · rfl
  · decide

/-- C3 (amended): for every PDF-typed ingestion request, the Document row
is created directly in `processing` (the `pending` state of the model's
default is never observed), and the only status written afterwards is the
terminal `completed` or `failed` — the status never regresses and no other
order is observable. -/
theorem c3_status_monotone (env : IngestEnv) (db : DocDb)
    (s3Key fileName contentType : Str) (fileSize : Option Nat)
    (h : jsIncludes contentType "pdf".toList = true) :
    (processDocument env db s3Key fileName contentType fileSize).trace =
      [ProcStatus.processing, ProcStatus.completed] ∨
    (processDocument env db s3Key fileName contentType fileSize).trace =
      [ProcStatus.processing, ProcStatus.failed] := by
  unfold processDocument
  rw [if_neg (by rw [h]; exact fun hc => hc rfl)]
  dsimp only
  split
  · exact Or.inl rfl
  · exact Or.inr rfl

theorem c3_status_monotone_witness :
    jsIncludes "application/pdf".toList "pdf".toList = true ∧
    ((processDocument ⟨true, .error "m", .error "gone", fun _ => .error "down"⟩
        ⟨[], [], 0⟩ "k".toList "f".toList "application/pdf".toList (some 3)).trace =
        [ProcStatus.processing, ProcStatus.completed] ∨
      (processDocument ⟨true, .error "m", .error "gone", fun _ => .error "down"⟩
        ⟨[], [], 0⟩ "k".toList "f".toList "application/pdf".toList (some 3)).trace =
        [ProcStatus.processing, ProcStatus.failed]) :=
  ⟨by decide, c3_status_monotone _ _ _ _ _ _ (by decide)⟩

theorem splitGo_sublist (text : Str) (avg : Nat) :
    ∀ k cur, ∀ ch ∈ splitGo text avg k cur, ch.Sublist text := by
  intro k
  induction k with
  | zero => intro cur ch hch; simp [splitGo] at hch
  | succ k ih =>
    intro cur ch hch
    unfold splitGo at hch
    dsimp only at hch
    split at hch
    · split at hch
      · split at hch
        · rcases List.mem_cons.mp hch with rfl | h
          · exact (List.take_sublist _ _).trans (jsSubstring_sublist text _ _)
          · exact ih _ ch h
        · rcases List.mem_cons.mp hch with rfl | h
          · exact jsSubstring_sublist text _ _
          · exact ih _ ch h
      · rcases List.mem_cons.mp hch with rfl | h
        · exact jsSubstring_sublist text _ _
        · exact ih _ ch h
    · rcases List.mem_cons.mp hch with rfl | h
      · exact jsSubstring_sublist text _ _
      · exact ih _ ch h

theorem splitTextIntoPages_sublist (text : Str) (totalPages : Nat) :
    ∀ ch ∈ splitTextIntoPages text totalPages, ch.Sublist text := by
  intro ch hch
  unfold splitTextIntoPages at hch
  split at hch
  · rcases List.mem_cons.mp hch with rfl | h
    · exact List.Sublist.refl _
    · simp at h
  · exact splitGo_sublist text _ totalPages 0 ch hch

theorem jsTrim_eq_nil_of_all_white {l : Str} (h : ∀ c ∈ l, isJsWhite c) :
    jsTrim l = [] := by
  unfold jsTrim
  have h1 : l.dropWhile isJsWhite = [] := List.dropWhile_eq_nil_iff.mpr h
  rw [h1]
  rfl

theorem embedLoop_all_trim_nil (embed : Str → Except String (List ℝ))
    (documentId totalPages : Nat) (fileName : Str) :
    ∀ (pages : List Str), (∀ p ∈ pages, jsTrim p = []) →
      ∀ (i : Nat) (db : DocDb) (count : Nat),
        embedLoop embed documentId totalPages fileName pages i db count = .ok (db, count) := by
  intro pages
  induction pages with
  | nil => intro _ i db count; rfl
  | cons p rest ih =>
    intro h i db count
    unfold embedLoop
    dsimp only
    rw [if_pos (by rw [h p (List.mem_cons_self _ _)]; rfl)]
    exact ih (fun q hq => h q (List.mem_cons_of_mem _ hq)) (i + 1) db count

theorem createPageEmbeddings_all_white (embed : Str → Except String (List ℝ))
    (db : DocDb) (documentId : Nat) (fullText : Str) (totalPages : Nat) (fileName : Str)
    (h : ∀ c ∈ fullText, isJsWhite c) :
    createPageEmbeddings embed db documentId fullText totalPages fileName = .ok (db, 0) := by
  unfold createPageEmbeddings
  rw [embedLoop_all_trim_nil embed documentId totalPages fileName
    (splitTextIntoPages fullText totalPages)
    (fun p hp => jsTrim_eq_nil_of_all_white
      (fun c hc => h c ((splitTextIntoPages_sublist fullText totalPages p hp).subset hc)))
    0 db 0]

theorem updateDoc_embs (db : DocDb) (docId : Nat) (f : DocRow → DocRow) :
    (updateDoc db docId f).embs = db.embs := rfl

theorem updateDoc_append (db : DocDb) (l : List DocRow) (d : DocRow) (docId : Nat)
    (f : DocRow → DocRow) (hdocs : db.docs = l ++ [d])
    (hl : ∀ x ∈ l, x.id ≠ docId) (hd : d.id = docId) :
    (updateDoc db docId f).docs = l ++ [f d] := by
  unfold updateDoc
  simp only [hdocs, List.map_append]
  congr 1
  · have hcong : ∀ x ∈ l, (if x.id = docId then f x else x) = x :=
      fun x hx => if_neg (hl x hx)
    rw [List.map_congr_left hcong]
    simp
  · simp [hd]

theorem metaRefresh_embs (env : IngestEnv) (db : DocDb) (docId : Nat)
    (fs : Option Nat) : (metaRefresh env db docId fs).embs = db.embs := by
  unfold metaRefresh
  split
  · split <;> rfl
  · rfl

theorem metaRefresh_append (env : IngestEnv) (db : DocDb) (docId : Nat)
    (fs : Option Nat) (l : List DocRow) (d : DocRow) (hdocs : db.docs = l ++ [d])
    (hl : ∀ x ∈ l, x.id ≠ docId) (hd : d.id = docId) :
    ∃ d', (metaRefresh env db docId fs).docs = l ++ [d'] ∧ d'.id = docId ∧
      d'.processingStatus = d.processingStatus ∧ d'.totalPages = d.totalPages := by
  unfold metaRefresh
  split
  · split
    · exact ⟨_, updateDoc_append db l d docId _ hdocs hl hd, hd, rfl, rfl⟩
    · exact ⟨d, hdocs, hd, rfl, rfl⟩
  · exact ⟨d, hdocs, hd, rfl, rfl⟩

theorem processTry_all_white (env : IngestEnv) (db2 : DocDb) (docId : Nat)
    (fs : Option Nat) (s3Key fileName : Str) (pd : PdfData)
    (hex : env.fileExists = true) (hpdf : env.pdf = .ok pd)
    (hws : ∀ c ∈ pd.text, isJsWhite c) :
    processTry env db2 docId fs s3Key fileName =
      .ok (updateDoc (metaRefresh env db2 docId fs) docId
          (fun d => { d with totalPages := pd.numpages }), 0, pd.numpages) := by
  unfold processTry
  rw [if_neg (by simp [hex])]
  dsimp only
  rw [hpdf]
  dsimp only
  rw [createPageEmbeddings_all_white _ _ _ _ _ _ hws]

/-- C10: ingesting a valid PDF whose extracted text is empty or
all-whitespace succeeds rather than fails: every chunk trims to empty and
is skipped, zero Embedding rows are persisted, and the Document row ends
in `completed` with `embeddingsCreated = 0` (and the extracted page
count). -/
theorem c10_whitespace_pdf_completes (env : IngestEnv) (db : DocDb)
    (s3Key fileName contentType : Str) (fileSize : Option Nat) (pd : PdfData)
    (hct : jsIncludes contentType "pdf".toList = true)
    (hex : env.fileExists = true)
    (hpdf : env.pdf = .ok pd)
    (hws : ∀ c ∈ pd.text, isJsWhite c)
    (hfresh : ∀ x ∈ db.docs, x.id ≠ db.nextDocId) :
    (processDocument env db s3Key fileName contentType fileSize).result =
      .ok (0, pd.numpages) ∧
    (processDocument env db s3Key fileName contentType fileSize).trace =
      [ProcStatus.processing, ProcStatus.completed] ∧
    (processDocument env db s3Key fileName contentType fileSize).db.embs = db.embs ∧
    ∃ d, (processDocument env db s3Key fileName contentType fileSize).db.docs =
        db.docs ++ [d] ∧
      d.id = db.nextDocId ∧ d.processingStatus = ProcStatus.completed ∧
      d.totalPages = pd.numpages := by
  have hcond : ¬ ¬ (jsIncludes contentType "pdf".toList = true) := fun hn => hn hct
  unfold processDocument
  rw [if_neg hcond]
  dsimp only
  rw [processTry_all_white env _ db.nextDocId fileSize s3Key fileName pd hex hpdf hws]
  dsimp only
  refine ⟨rfl, rfl, ?_, ?_⟩
  · rw [updateDoc_embs, updateDoc_embs, metaRefresh_embs]
  · obtain ⟨d1, h1, hid1, hst1, htp1⟩ :=
      metaRefresh_append env
        (DocDb.mk
          (db.docs ++ [DocRow.mk db.nextDocId fileName s3Key contentType fileSize 0
            ProcStatus.processing none])
          db.embs (db.nextDocId + 1))
        db.nextDocId fileSize db.docs _ rfl hfresh rfl
    have h2 := updateDoc_append _ db.docs d1 db.nextDocId
      (fun d => { d with totalPages := pd.numpages }) h1 hfresh hid1
    have h3 := updateDoc_append _ db.docs _ db.nextDocId
      (fun d => { d with processingStatus := ProcStatus.completed }) h2 hfresh hid1
    exact ⟨_, h3, hid1, rfl, rfl⟩

theorem c10_whitespace_pdf_completes_witness :
    (processDocument ⟨true, .error "m", .ok ⟨3, "  ".toList⟩, fun _ => .error "e"⟩
        ⟨[], [], 0⟩ "k".toList "f".toList "application/pdf".toList (some 1)).result =
      .ok (0, 3) ∧
    (processDocument ⟨true, .error "m", .ok ⟨3, "  ".toList⟩, fun _ => .error "e"⟩
        ⟨[], [], 0⟩ "k".toList "f".toList "application/pdf".toList (some 1)).trace =
      [ProcStatus.processing, ProcStatus.completed] :=
  ⟨(c10_whitespace_pdf_completes _ _ _ _ _ _ ⟨3, "  ".toList⟩ (by decide) rfl rfl
      (by decide) (by simp)).1,
    (c10_whitespace_pdf_completes _ _ _ _ _ _ ⟨3, "  ".toList⟩ (by decide) rfl rfl
      (by decide) (by simp)).2.1⟩

theorem cosineSimilarity_length_ne {a b : List ℝ} (h : a.length ≠ b.length) :
    cosineSimilarity a b = .error "Vectors must have the same length" := by
  unfold cosineSimilarity
  rw [if_pos h]

theorem cosineSimilarity_length_eq {a b : List ℝ} (h : a.length = b.length) :
    ∃ s, cosineSimilarity a b = .ok s := by
  unfold cosineSimilarity
  rw [if_neg (fun hc => hc h)]
  dsimp only
  split
  · exact ⟨0, rfl⟩
  · exact ⟨_, rfl⟩

theorem mem_insertDesc {a x : VectorSearchResult} {l : List VectorSearchResult}
    (h : a ∈ insertDesc x l) : a = x ∨ a ∈ l := by
  induction l with
  | nil => simpa [insertDesc] using h
  | cons y ys ih =>
    unfold insertDesc at h
    split at h
    · rcases List.mem_cons.mp h with rfl | h2
      · exact Or.inl rfl
      · exact Or.inr h2
    · rcases List.mem_cons.mp h with rfl | h2
      · exact Or.inr (List.mem_cons_self _ _)
      · rcases ih h2 with h3 | h3
        · exact Or.inl h3
        · exact Or.inr (List.mem_cons_of_mem _ h3)

theorem mem_sortDesc {a : VectorSearchResult} {l : List VectorSearchResult}
    (h : a ∈ sortDesc l) : a ∈ l := by
  induction l with
  | nil => simp [sortDesc] at h
  | cons x xs ih =>
    unfold sortDesc at h
    rcases mem_insertDesc h with rfl | h2
    · exact List.mem_cons_self _ _
    · exact List.mem_cons_of_mem _ (ih h2)

theorem searchLoop_threshold (q : List ℝ) (t : ℝ) :
    ∀ (rows : List EmbRecord), ∀ r ∈ searchLoop q t rows, t ≤ r.similarity := by
  intro rows
  induction rows with
  | nil => intro r h; simp [searchLoop] at h
  | cons e rest ih =>
    intro r h
    unfold searchLoop at h
    split at h
    · exact ih r h
    · split at h
      · next hge =>
        rcases List.mem_cons.mp h with rfl | h2
        · exact hge
        · exact ih r h2
      · exact ih r h

theorem sorted_insertDesc {x : VectorSearchResult} {l : List VectorSearchResult}
    (h : l.Sorted fun a b => b.similarity ≤ a.similarity) :
    (insertDesc x l).Sorted fun a b => b.similarity ≤ a.similarity := by
  induction l with
  | nil => simp [insertDesc]
  | cons y ys ih =>
    rw [List.sorted_cons] at h
    unfold insertDesc
    split
    · next hyx =>
      rw [List.sorted_cons]
      refine ⟨?_, List.sorted_cons.mpr h⟩
      intro b hb
      rcases List.mem_cons.mp hb with rfl | hb2
      · exact hyx
      · exact le_trans (h.1 b hb2) hyx
    · next hyx =>
      rw [List.sorted_cons]
      refine ⟨?_, ih h.2⟩
      intro b hb
      rcases mem_insertDesc hb with rfl | hb2
      · exact le_of_not_le hyx
      · exact h.1 b hb2

theorem sorted_sortDesc (l : List VectorSearchResult) :
    (sortDesc l).Sorted fun a b => b.similarity ≤ a.similarity := by
  induction l with
  | nil => simp [sortDesc]
  | cons x xs ih => exact sorted_insertDesc ih

theorem filter_insertDesc_pos (v : ℝ) (x : VectorSearchResult)
    (l : List VectorSearchResult) (hx : x.similarity = v) :
    (insertDesc x l).filter (fun r => decide (r.similarity = v)) =
      x :: l.filter (fun r => decide (r.similarity = v)) := by
  induction l with
  | nil => simp [insertDesc, hx]
  | cons y ys ih =>
    unfold insertDesc
    split
    · next hyx =>
      rw [List.filter_cons_of_pos (by simpa using hx)]
    · next hyx =>
      have hyv : ¬ y.similarity = v := by
        intro hv
        exact hyx (le_of_eq (hv.trans hx.symm))
      rw [List.filter_cons_of_neg (by simpa using hyv), ih,
        List.filter_cons_of_neg (by simpa using hyv)]

theorem filter_insertDesc_neg (v : ℝ) (x : VectorSearchResult)
    (l : List VectorSearchResult) (hx : ¬ x.similarity = v) :
    (insertDesc x l).filter (fun r => decide (r.similarity = v)) =
      l.filter (fun r => decide (r.similarity = v)) := by
  induction l with
  | nil => simp [insertDesc, hx]
  | cons y ys ih =>
    unfold insertDesc
    split
    · rw [List.filter_cons_of_neg (by simpa using hx)]
    · by_cases hyv : y.similarity = v
      · rw [List.filter_cons_of_pos (by simpa using hyv), ih,
          List.filter_cons_of_pos (by simpa using hyv)]
      · rw [List.filter_cons_of_neg (by simpa using hyv), ih,
          List.filter_cons_of_neg (by simpa using hyv)]

theorem filter_sortDesc (v : ℝ) (l : List VectorSearchResult) :
    (sortDesc l).filter (fun r => decide (r.similarity = v)) =
      l.filter (fun r => decide (r.similarity = v)) := by
  induction l with
  | nil => rfl
  | cons x xs ih =>
    unfold sortDesc
    by_cases hx : x.similarity = v
    · rw [filter_insertDesc_pos v x _ hx, ih, List.filter_cons_of_pos (by simpa using hx)]
    · rw [filter_insertDesc_neg v x _ hx, ih, List.filter_cons_of_neg (by simpa using hx)]

/-- C4: for every query vector, limit `K`, threshold `T` and store,
`searchSimilarEmbeddings` returns at most `K` results, every returned
result has `similarity ≥ T`, the returned list is sorted non-increasing by
similarity, and the sort is stable (for each similarity value, the sorted
list restricted to that value keeps the loop's original storage order);
truncation to `K` is applied to the sorted list. -/
theorem c4_search_ranked_limited (q : List ℝ) (K : Nat) (T : ℝ) (uid : Option Str)
    (store : List EmbRecord) :
    (searchSimilarEmbeddings q K T uid store).length ≤ K ∧
    (∀ r ∈ searchSimilarEmbeddings q K T uid store, T ≤ r.similarity) ∧
    (searchSimilarEmbeddings q K T uid store).Sorted
      (fun a b => b.similarity ≤ a.similarity) ∧
    (∀ v : ℝ, (sortDesc (searchLoop q T (searchRows uid store))).filter
        (fun r => decide (r.similarity = v)) =
      (searchLoop q T (searchRows uid store)).filter
        (fun r => decide (r.similarity = v))) := by
  refine ⟨?_, ?_, ?_, fun v => filter_sortDesc v _⟩
  · unfold searchSimilarEmbeddings
    exact List.length_take_le _ _
  · intro r hr
    unfold searchSimilarEmbeddings at hr
    exact searchLoop_threshold q T _ r (mem_sortDesc (List.take_subset _ _ hr))
  · unfold searchSimilarEmbeddings
    exact List.Pairwise.sublist (List.take_sublist _ _) (sorted_sortDesc _)

theorem c4_search_ranked_limited_witness :
    (searchSimilarEmbeddings [] 3 0 none []).length ≤ 3 :=
  (c4_search_ranked_limited [] 3 0 none []).1

theorem searchLoop_skips_mismatched (q : List ℝ) (t : ℝ) :
    ∀ rows : List EmbRecord,
      searchLoop q t rows =
        searchLoop q t (rows.filter fun e => decide (e.embedding.length = q.length)) := by
  intro rows
  induction rows with
  | nil => rfl
  | cons e rest ih =>
    by_cases hd : e.embedding.length = q.length
    · rw [List.filter_cons_of_pos (by simpa using hd)]
      obtain ⟨s, hs⟩ := cosineSimilarity_length_eq (a := q) (b := e.embedding) hd.symm
      unfold searchLoop
      rw [hs]
      dsimp only
      by_cases hge : s ≥ t
      · rw [if_pos hge, if_pos hge, ih]
      · rw [if_neg hge, if_neg hge, ih]
    · rw [List.filter_cons_of_neg (by simpa using hd)]
      conv_lhs => rw [searchLoop]
      rw [cosineSimilarity_length_ne (fun hq => hd hq.symm)]
      exact ih

theorem searchRows_filter_comm (uid : Option Str) (store : List EmbRecord)
    (p : EmbRecord → Bool) :
    searchRows uid (store.filter p) = (searchRows uid store).filter p := by
  cases uid with
  | none => rfl
  | some u =>
    show (store.filter p).filter (fun e => decide (e.documentUserId = some u)) =
      ((store.filter fun e => decide (e.documentUserId = some u)).filter p)
    rw [List.filter_filter, List.filter_filter]
    exact List.filter_congr fun e he => Bool.and_comm _ _

/-- C2: comparing vectors of different lengths does make
`cosineSimilarity` fail with the dimension-mismatch error, but the error
is not raised to the search caller: `searchSimilarEmbeddings` catches it
per embedding and skips that record, so the search result is exactly the
result over the records whose vectors match the query's dimension. -/
theorem c2_mismatch_caught_and_skipped (a b : List ℝ) (h : a.length ≠ b.length)
    (limit : Nat) (t : ℝ) (uid : Option Str) (store : List EmbRecord) :
    cosineSimilarity a b = .error "Vectors must have the same length" ∧
    searchSimilarEmbeddings a limit t uid store =
      searchSimilarEmbeddings a limit t uid
        (store.filter fun e => decide (e.embedding.length = a.length)) := by
  refine ⟨cosineSimilarity_length_ne h, ?_⟩
  unfold searchSimilarEmbeddings
  rw [searchRows_filter_comm, ← searchLoop_skips_mismatched]

theorem c2_mismatch_caught_and_skipped_witness :
    ([(1 : ℝ), 0].length ≠ [(1 : ℝ), 0, 2].length) ∧
    (cosineSimilarity [(1 : ℝ), 0] [(1 : ℝ), 0, 2] =
        .error "Vectors must have the same length" ∧
      searchSimilarEmbeddings [(1 : ℝ), 0] 10 (7 / 10) none
          [⟨1, 1, 1, "c".toList, [(1 : ℝ), 0, 2], none, none⟩] =
        searchSimilarEmbeddings [(1 : ℝ), 0] 10 (7 / 10) none
          (([⟨1, 1, 1, "c".toList, [(1 : ℝ), 0, 2], none, none⟩] : List EmbRecord).filter
            fun e => decide (e.embedding.length = [(1 : ℝ), 0].length))) :=
  ⟨by simp, c2_mismatch_caught_and_skipped _ _ (by simp) 10 (7 / 10) none _⟩

/-- C2 (as stated) is false at a concrete store: with a query of dimension
2 and a single stored embedding of dimension 3, `cosineSimilarity` on the
pair throws, yet `searchSimilarEmbeddings` returns the empty result list
instead of raising the dimension error to its caller — the mismatched
embedding is silently skipped. -/
theorem c2_mismatch_counterexample :
    cosineSimilarity [(1 : ℝ), 0] [(1 : ℝ), 0, 2] =
      .error "Vectors must have the same length" ∧
    searchSimilarEmbeddings [(1 : ℝ), 0] 10 (7 / 10) none
      [⟨1, 1, 1, "c".toList, [(1 : ℝ), 0, 2], none, none⟩] = [] := by
  constructor
  · unfold cosineSimilarity
    rw [if_pos (by simp)]
  · unfold searchSimilarEmbeddings searchRows searchLoop
    rw [show cosineSimilarity [(1 : ℝ), 0]
        (EmbRecord.mk 1 1 1 "c".toList [(1 : ℝ), 0, 2] none none).embedding =
        .error "Vectors must have the same length" from by
      unfold cosineSimilarity
      rw [if_pos (by simp)]]
    rfl

/-- C5: a successful `processQuery` persists exactly two ChatMessage rows
— the user message (the query) then the assistant message (the answer),
appended only after the completion gateway returned — bumps the chat's
`totalMessages` by exactly 2, adds the gateway-reported total token usage
to `totalTokensUsed`, and returns the assistant message id. -/
theorem c5_success_persists_pair (db : ChatDb) (req : ChatQueryRequest)
    (resp : LLMResponse) (chat : ChatRow)
    (hfind : findActiveChat db.chats req.chatId req.userId = some chat) :
    (processQuery ⟨fun _ => .ok resp, .error "unused"⟩ db req).1.msgs =
      db.msgs ++
        [MsgRow.mk db.nextMsgId req.chatId MsgRole.user req.query (MsgMeta.mk none none),
         MsgRow.mk (db.nextMsgId + 1) req.chatId MsgRole.assistant resp.answer
           (MsgMeta.mk (some resp.tokensUsed.total) (some resp.model))] ∧
    (processQuery ⟨fun _ => .ok resp, .error "unused"⟩ db req).1.chats =
      db.chats.map (fun c =>
        if c.id = chat.id then
          { c with metadata := some (ChatMeta.mk
              ((match chat.metadata with | some m => m.totalMessages | none => 0) + 2)
              ((match chat.metadata with | some m => m.totalTokensUsed | none => 0) +
                resp.tokensUsed.total)) }
        else c) ∧
    (processQuery ⟨fun _ => .ok resp, .error "unused"⟩ db req).2 =
      .ok (QueryResponse.mk req.chatId req.query resp.answer resp.tokensUsed.total
        resp.model (db.nextMsgId + 1)) := by
  unfold processQuery
  rw [hfind]
  dsimp only
  unfold generateResponse
  dsimp only
  exact ⟨rfl, rfl, rfl⟩

theorem c5_success_persists_pair_witness :
    (processQuery ⟨fun _ => .ok (LLMResponse.mk "a".toList ⟨1, 2, 3⟩ "m".toList "stop".toList),
        .error "unused"⟩
      (ChatDb.mk ["u".toList]
        [ChatRow.mk 1 "t".toList none "u".toList ChatStatus.active (some ⟨4, 7⟩)] [] 2 5)
      ⟨"q".toList, 1, "u".toList⟩).1.msgs =
      [] ++
        [MsgRow.mk 5 1 MsgRole.user "q".toList (MsgMeta.mk none none),
         MsgRow.mk 6 1 MsgRole.assistant "a".toList (MsgMeta.mk (some 3) (some "m".toList))] :=
  (c5_success_persists_pair
    (ChatDb.mk ["u".toList]
      [ChatRow.mk 1 "t".toList none "u".toList ChatStatus.active (some ⟨4, 7⟩)] [] 2 5)
    ⟨"q".toList, 1, "u".toList⟩ (LLMResponse.mk "a".toList ⟨1, 2, 3⟩ "m".toList "stop".toList)
    (ChatRow.mk 1 "t".toList none "u".toList ChatStatus.active (some ⟨4, 7⟩))
    (by decide)).1

theorem find?_append_of_none {α : Type} (p : α → Bool) (l₁ l₂ : List α)
    (h : l₁.find? p = none) : (l₁ ++ l₂).find? p = l₂.find? p := by
  induction l₁ with
  | nil => rfl
  | cons x xs ih =>
    cases hp : p x with
    | true =>
      rw [List.find?_cons_of_pos _ hp] at h
      cases h
    | false =>
      rw [List.find?_cons_of_neg _ (by simp [hp])] at h
      rw [List.cons_append, List.find?_cons_of_neg _ (by simp [hp])]
      exact ih h

theorem find?_none_of_all {α : Type} (p : α → Bool) (l : List α)
    (h : ∀ x ∈ l, p x = false) : l.find? p = none := by
  induction l with
  | nil => rfl
  | cons x xs ih =>
    rw [List.find?_cons_of_neg _ (by simp [h x (List.mem_cons_self _ _)])]
    exact ih fun y hy => h y (List.mem_cons_of_mem _ hy)

theorem findActiveChat_append (chats : List ChatRow) (c0 : ChatRow) (userId : Str)
    (hfresh : ∀ c ∈ chats, c.id ≠ c0.id)
    (hu : c0.userId = userId) (hs : c0.status = ChatStatus.active) :
    findActiveChat (chats ++ [c0]) c0.id userId = some c0 := by
  unfold findActiveChat
  rw [find?_append_of_none]
  · rw [List.find?_cons_of_pos]
    simp [hu, hs]
  · refine find?_none_of_all _ _ fun c hc => ?_
    simp only [decide_eq_false_iff_not]
    rintro ⟨h1, -, -⟩
    exact hfresh c hc h1

theorem processQuery_complete_error (db : ChatDb) (req : ChatQueryRequest)
    (e : String) (tc : Except String (Option Str)) (chat : ChatRow)
    (hfind : findActiveChat db.chats req.chatId req.userId = some chat) :
    processQuery ⟨fun _ => .error e, tc⟩ db req =
      (db, .error ("Failed to process query: " ++
        ("Failed to generate LLM response: " ++ e))) := by
  unfold processQuery
  rw [hfind]
  dsimp only
  unfold generateResponse
  dsimp only

theorem processQuery_chats_title_status (env : LLMEnv) (db : ChatDb)
    (req : ChatQueryRequest) :
    ((processQuery env db req).1.chats.map fun c => (c.title, c.status)) =
      db.chats.map fun c => (c.title, c.status) := by
  unfold processQuery
  cases hfind : findActiveChat db.chats req.chatId req.userId with
  | none => rfl
  | some chat =>
    dsimp only
    unfold generateResponse
    cases hc : env.complete (buildRagMessages req.query [] (chatHistoryOf db.msgs req.chatId)) with
    | error e => rfl
    | ok resp =>
      dsimp only
      rw [List.map_map]
      refine List.map_congr_left fun c hc2 => ?_
      by_cases hid : c.id = chat.id
      · simp [hid]
      · simp [hid]

/-- C8: when no title is supplied and the title-generation completion call
fails, the created chat's title is deterministically the first six words
of the query (`split(' ').slice(0, 6).join(' ')`), truncated to 47
characters plus a trailing `'...'` when longer than 50, hence always at
most 50 characters — and the failure never aborts chat creation: whatever
the main completion call does, the chat row is appended in `active`. -/
theorem c8_title_fallback_never_aborts (db : ChatDb) (query userId : Str) (e : String)
    (complete : List LLMMessage → Except String LLMResponse)
    (huser : db.users.contains userId = true) :
    ((createChat ⟨complete, .error e⟩ db ⟨query, userId, none⟩).1.chats.map
        fun c => (c.title, c.status)) =
      (db.chats.map fun c => (c.title, c.status)) ++
        [(titleFallback query, ChatStatus.active)] ∧
    (titleFallback query).length ≤ 50 ∧
    (titleFallback query = List.intercalate " ".toList ((splitOnSpace query).take 6) ∨
      titleFallback query =
        (List.intercalate " ".toList ((splitOnSpace query).take 6)).take 47 ++
          "...".toList) := by
  refine ⟨?_, ?_, ?_⟩
  · unfold createChat
    rw [if_neg (fun hn => hn huser)]
    dsimp only
    split
    · next db2 r heq =>
      have hsh := congrArg (fun p => p.1.chats.map fun c => (c.title, c.status)) heq
      dsimp only at hsh
      rw [processQuery_chats_title_status] at hsh
      rw [← hsh, List.map_append]
      rfl
    · next db2 r heq =>
      have hsh := congrArg (fun p => p.1.chats.map fun c => (c.title, c.status)) heq
      dsimp only at hsh
      rw [processQuery_chats_title_status] at hsh
      rw [← hsh, List.map_append]
      rfl
  · unfold titleFallback
    dsimp only
    split
    · rw [List.length_append, List.length_take]
      have : ("...".toList : List Char).length = 3 := rfl
      omega
    · next hlen => omega
  · unfold titleFallback
    dsimp only
    split
    · exact Or.inr rfl
    · exact Or.inl rfl

theorem c8_title_fallback_never_aborts_witness :
    (((createChat ⟨fun _ => .error "down", .error "down"⟩ (ChatDb.mk ["u".toList] [] [] 0 0)
          ⟨"What is the refund policy?".toList, "u".toList, none⟩).1.chats.map
        fun c => (c.title, c.status)) =
      ([] : List ChatRow).map (fun c => (c.title, c.status)) ++
        [(titleFallback "What is the refund policy?".toList, ChatStatus.active)]) ∧
    (titleFallback "What is the refund policy?".toList).length ≤ 50 ∧
    (titleFallback "What is the refund policy?".toList =
        List.intercalate " ".toList
          ((splitOnSpace "What is the refund policy?".toList).take 6) ∨
      titleFallback "What is the refund policy?".toList =
        (List.intercalate " ".toList
          ((splitOnSpace "What is the refund policy?".toList).take 6)).take 47 ++
          "...".toList) :=
  c8_title_fallback_never_aborts (ChatDb.mk ["u".toList] [] [] 0 0)
    "What is the refund policy?".toList "u".toList "down" (fun _ => .error "down")
    (by decide)

/-- C9: `createChat` is not atomic with its first query: when the
completion gateway fails inside the delegated `processQuery`, `createChat`
returns the wrapped error but the already-created Chat row stays persisted
— owned by the caller, in `active`, with zeroed usage counters — and no
ChatMessage row exists for it. -/
theorem c9_failed_first_query_keeps_chat (db : ChatDb) (query userId : Str)
    (title : Option Str) (e : String) (tc : Except String (Option Str))
    (huser : db.users.contains userId = true)
    (hfresh : ∀ c ∈ db.chats, c.id ≠ db.nextChatId) :
    ((createChat ⟨fun _ => .error e, tc⟩ db ⟨query, userId, title⟩).1.chats.map
        fun c => (c.userId, c.status, c.metadata)) =
      (db.chats.map fun c => (c.userId, c.status, c.metadata)) ++
        [(userId, ChatStatus.active, some (ChatMeta.mk 0 0))] ∧
    (createChat ⟨fun _ => .error e, tc⟩ db ⟨query, userId, title⟩).1.msgs = db.msgs ∧
    (createChat ⟨fun _ => .error e, tc⟩ db ⟨query, userId, title⟩).2 =
      .error ("Failed to create chat: " ++ ("Failed to process query: " ++
        ("Failed to generate LLM response: " ++ e))) := by
  unfold createChat
  rw [if_neg (fun hn => hn huser)]
  dsimp only
  rw [processQuery_complete_error _ _ _ _ _
    (findActiveChat_append db.chats _ userId (fun c hc => hfresh c hc) rfl rfl)]
  dsimp only
  refine ⟨?_, rfl, rfl⟩
  rw [List.map_append]
  rfl

theorem c9_failed_first_query_keeps_chat_witness :
    (((createChat ⟨fun _ => .error "gw", .error "t"⟩ (ChatDb.mk ["u".toList] [] [] 0 0)
          ⟨"q".toList, "u".toList, some "T".toList⟩).1.chats.map
        fun c => (c.userId, c.status, c.metadata)) =
      ([] : List ChatRow).map (fun c => (c.userId, c.status, c.metadata)) ++
        [("u".toList, ChatStatus.active, some (ChatMeta.mk 0 0))]) ∧
    (createChat ⟨fun _ => .error "gw", .error "t"⟩ (ChatDb.mk ["u".toList] [] [] 0 0)
        ⟨"q".toList, "u".toList, some "T".toList⟩).1.msgs = [] ∧
    (createChat ⟨fun _ => .error "gw", .error "t"⟩ (ChatDb.mk ["u".toList] [] [] 0 0)
        ⟨"q".toList, "u".toList, some "T".toList⟩).2 =
      .error ("Failed to create chat: " ++ ("Failed to process query: " ++
        ("Failed to generate LLM response: " ++ "gw"))) :=
  c9_failed_first_query_keeps_chat (ChatDb.mk ["u".toList] [] [] 0 0) "q".toList
    "u".toList (some "T".toList) "gw" (.error "t") (by decide) (by simp)
